import Mathlib

/-!
Verification development for the telemetry pipeline of the
Agentic-Logs-Analyzer repository (Go).

The Go source is shallowly embedded as follows.

* Go `float64` values are modelled exactly: every finite binary64 number is
  a rational, represented here by the unreduced integer fraction type `F64`
  (no gcd normalisation, so all operations reduce inside the Lean kernel).
  Each Go floating-point operation (`+`, `*`, `/`, and the conversion of a
  decimal literal) performs the exact rational operation followed by
  round-to-nearest-even at 53 bits of precision (`rnd`), which is precisely
  the IEEE-754 binary64 semantics Go guarantees for these operations in the
  normal range.  The model has an unbounded exponent range: overflow to
  infinity, NaN and subnormal rounding are outside the model (none of the
  values in the claims or in the program's domain come anywhere near those
  regimes), and division by zero is never performed by the embedded code
  (`average` guards the empty list).
* Go maps are modelled as association lists; the list order of a
  `map` stands for the (unspecified, randomised) iteration order of the Go
  map, so a single Go map value corresponds to the whole permutation class
  of the list.
* `time.Now()` is modelled by an explicit `now` parameter threaded into
  `Detect`.
* `log.Fatal` in `config.validate` is modelled by returning `false`
  (process stops) versus `true` (validation passed).
* The fallible steps of `Publisher.Publish` are modelled by an explicit
  `PublishAttempt` argument naming which step, if any, fails:
  `json.Marshal` of the event, `http.NewRequestWithContext` (which fails
  when the configured sink address is not a valid URL), or the HTTP
  exchange itself — the latter either a transport failure or a response
  with a status code whose body either parses as the decision shape or
  not.
-/

namespace Telemetry

/-- Exact value of a Go `float64`, as an unreduced integer fraction
`n / d`.  All constructors and operations below keep `d > 0`. -/
structure F64 where
  n : Int
  d : Int
deriving DecidableEq

/-- Strict order on fraction values (valid when both denominators are
positive, which every value built by the model satisfies).  Models the Go
`<` comparison on `float64` (exact, since both sides are exact values). -/
def qlt (a b : F64) : Bool := a.n * b.d < b.n * a.d

/-- Non-strict order on fraction values; models Go `<=` / `>=` on
`float64`. -/
def qle (a b : F64) : Bool := a.n * b.d ≤ b.n * a.d

/-- Round the exact fraction `a / b` (with `b > 0`) to the nearest integer,
ties to even — the rounding used at the last bit of every IEEE-754
operation. -/
def rheF (a b : Int) : Int :=
  let f := a.fdiv b
  let r2 := 2 * (a - f * b)
  if r2 < b then f else if b < r2 then f + 1 else if f % 2 = 0 then f else f + 1

/-- Scale the fraction `n / d` down (halving the value by doubling `d`)
until it is `< 2`, tracking the binary exponent `e`.  Fuel-indexed
structural recursion; the fuel used by `rnd` covers the entire binary64
exponent range with a wide margin. -/
def normDn : Nat → Int → Int → Int → Int × Int × Int
  | 0, n, d, e => (n, d, e)
  | fuel + 1, n, d, e => if 2 * d ≤ n then normDn fuel n (2 * d) (e + 1) else (n, d, e)

/-- Scale the fraction `n / d` up (doubling `n`) until it is `≥ 1`,
tracking the binary exponent `e`. -/
def normUp : Nat → Int → Int → Int → Int × Int × Int
  | 0, n, d, e => (n, d, e)
  | fuel + 1, n, d, e => if n < d then normUp fuel (2 * n) d (e - 1) else (n, d, e)

/-- Round the positive exact fraction `n / d` to the nearest binary64
value: normalise to `s · 2^e` with `1 ≤ s < 2`, round `s` to 53
significant bits (ties to even), and scale back. -/
def rndPos (n d : Int) : F64 :=
  let t1 := normDn 4500 n d 0
  let t2 := normUp 4500 t1.1 t1.2.1 t1.2.2
  let m := rheF (t2.1 * 2 ^ (52 : Nat)) t2.2.1
  let e := t2.2.2
  if 52 ≤ e then ⟨m * 2 ^ (e - 52).toNat, 1⟩ else ⟨m, 2 ^ (52 - e).toNat⟩

/-- Round an exact fraction (denominator positive) to the nearest binary64
value.  This is the correct-rounding step that IEEE-754 applies after each
exact arithmetic operation. -/
def rnd (q : F64) : F64 :=
  if q.n = 0 then ⟨0, 1⟩
  else if 0 < q.n then rndPos q.n q.d
  else
    let p := rndPos (-q.n) q.d
    ⟨-p.n, p.d⟩

/-- Go `float64` addition: exact sum, then binary64 rounding. -/
def addF (a b : F64) : F64 := rnd ⟨a.n * b.d + b.n * a.d, a.d * b.d⟩

/-- Go `float64` multiplication: exact product, then binary64 rounding. -/
def mulF (a b : F64) : F64 := rnd ⟨a.n * b.n, a.d * b.d⟩

/-- Go `float64` division: exact quotient, then binary64 rounding.  The
embedded program never divides by zero (`average` returns early on an
empty list). -/
def divF (a b : F64) : F64 :=
  if 0 ≤ b.n then rnd ⟨a.n * b.d, a.d * b.n⟩ else rnd ⟨-(a.n * b.d), a.d * (-b.n)⟩

/-- The binary64 value of a Go decimal literal written as the exact
rational `n / d` in the source (e.g. `litF 11 10` is the Go constant
`1.1` converted to `float64`). -/
def litF (n d : Int) : F64 := rnd ⟨n, d⟩

/-- The `float64` with integer value `k` (exact for every integer the
program manipulates). -/
def intF (k : Int) : F64 := ⟨k, 1⟩

/-- The exact rational value of a model float, for stating numeric facts
about computed cutoffs. -/
def F64.val (a : F64) : ℚ := (a.n : ℚ) / (a.d : ℚ)

/-- Model of Go `fmt.Sprintf("%.2f", q)`: the decimal numeral of the value
rounded to two fractional digits (Go's formatter rounds the exact binary
value correctly, ties to even). -/
def fmtDot2 (q : F64) : String :=
  let c := rheF (100 * q.n) q.d
  let a := c.natAbs
  (if c < 0 then "-" else "") ++ Nat.repr (a / 100) ++ "." ++
    (if a % 100 < 10 then "0" else "") ++ Nat.repr (a % 100)

/- ===== internal/detectors/types.go ===== -/

/-- Go `type Severity string`. -/
abbrev Severity := String

/-- Go constant `SeverityLow`. -/
def SeverityLow : Severity := "low"

/-- Go constant `SeverityMedium`. -/
def SeverityMedium : Severity := "medium"

/-- Go constant `SeverityHigh`. -/
def SeverityHigh : Severity := "high"

/-- Go constant `SeverityCritical`. -/
def SeverityCritical : Severity := "critical"

/-- Go `type SignalType string`. -/
abbrev SignalType := String

/-- Go constant `SignalCrashLoop`. -/
def SignalCrashLoop : SignalType := "crash_loop"

/-- Go constant `SignalOOM`. -/
def SignalOOM : SignalType := "oom"

/-- Go constant `SignalCPUSpike`. -/
def SignalCPUSpike : SignalType := "cpu_spike"

/-- Go constant `SignalAnamoly` (sic, as in the source). -/
def SignalAnamoly : SignalType := "anamoly"

/-- Go struct `IncidentSignal` (detectors/types.go).  The Go field `Type`
is rendered `Typ` because `Type` is a Lean keyword; `Timestamp`
(`time.Time`) is modelled as an integer clock reading; the `Metadata` map
is an association list. -/
structure IncidentSignal where
  ID : String
  Typ : SignalType
  Severity : String
  Namespace : String
  Resource : String
  Message : String
  Timestamp : Int
  Metadata : List (String × String)
deriving DecidableEq

/-- Go struct `SignalInput`.  `Metrics` is the Go
`map[string][]float64`; the list order stands for the map's (randomised)
iteration order. -/
structure SignalInput where
  Metrics : List (String × List F64)
  Labels : List (String × String)
deriving DecidableEq

/- ===== internal/detectors/cpu_spike.go ===== -/

/-- Character-list test used to model Go `strings.HasPrefix`. -/
def chListPfx : List Char → List Char → Bool
  | [], _ => true
  | _ :: _, [] => false
  | p :: ps, s :: ss => p == s && chListPfx ps ss

/-- Go `strings.HasPrefix(s, pat)`. -/
def goHasPfx (s pat : String) : Bool := chListPfx pat.data s.data

/-- Worker for Go `strings.Split(s, ":")`: cut the character list at every
colon. -/
def splitColonAux : List Char → List Char → List (List Char)
  | [], acc => [acc.reverse]
  | c :: cs, acc =>
    if c = ':' then acc.reverse :: splitColonAux cs [] else splitColonAux cs (c :: acc)

/-- Go `strings.Split(key, ":")`. -/
def goSplitColon (s : String) : List String := (splitColonAux s.data []).map String.mk

/-- cpu_spike.go `average`: running `float64` sum in slice order, divided
by `float64(len(values))` (that conversion is exact for every list length
below `2^53`); an empty slice yields `0`. -/
def average (values : List F64) : F64 :=
  if values.length = 0 then ⟨0, 1⟩
  else divF (values.foldl addF ⟨0, 1⟩) (intF values.length)

/-- cpu_spike.go `parseKey`: split on `":"`; 3 parts give
(parts[1], parts[2]), 2 parts give ("", parts[1]), anything else gives
("", "unknown"). -/
def parseKey (key : String) : String × String :=
  match goSplitColon key with
  | [_, p1, p2] => (p1, p2)
  | [_, p1] => ("", p1)
  | _ => ("", "unknown")

/-- cpu_spike.go `ClassifySeverity`: the Go comparisons
`avg >= threshold*1.5`, `avg >= threshold*1.2`, `avg >= threshold*1.1`,
with the literals `1.5`, `1.2`, `1.1` converted to `float64` and each
product computed in `float64`. -/
def ClassifySeverity (avg threshold : F64) : Severity :=
  if qle (mulF threshold (litF 3 2)) avg then SeverityCritical
  else if qle (mulF threshold (litF 6 5)) avg then SeverityHigh
  else if qle (mulF threshold (litF 11 10)) avg then SeverityMedium
  else SeverityLow

/-- The `IncidentSignal` literal built inside `Detect`'s loop body when
key `key` triggers (cpu_spike.go lines 30–46): `time.Now()` is the `now`
parameter, and the two `fmt.Sprintf("%.2f", _)` calls are `fmtDot2`. -/
def cpuSpikeSignal (threshold : F64) (now : Int) (key : String) (values : List F64) :
    IncidentSignal :=
  { ID := ""
    Typ := SignalCPUSpike
    Severity := ClassifySeverity (average values) threshold
    Namespace := (parseKey key).1
    Resource := (parseKey key).2
    Message := "CPU spike detected: average usage " ++ fmtDot2 (average values) ++
      " millicores exceeds threshold " ++ fmtDot2 threshold
    Timestamp := now
    Metadata := [("average_cpu_millicores", fmtDot2 (average values)),
                 ("threshold_millicores", fmtDot2 threshold)] }

/-- The loop of `(*CPUSpikeDetector).Detect` over the map entries in
iteration order: skip keys without the `"cpu:"` marker, return on the
first remaining key whose average strictly exceeds the threshold. -/
def detectGo (threshold : F64) (now : Int) :
    List (String × List F64) → Option IncidentSignal × Bool
  | [] => (none, false)
  | (key, values) :: rest =>
    if goHasPfx key "cpu:" then
      if qlt threshold (average values) then (some (cpuSpikeSignal threshold now key values), true)
      else detectGo threshold now rest
    else detectGo threshold now rest

/-- cpu_spike.go `Detect`, with the detector's `Threshold` field and the
`time.Now()` reading as explicit arguments. -/
def Detect (threshold : F64) (now : Int) (input : SignalInput) :
    Option IncidentSignal × Bool :=
  detectGo threshold now input.Metrics

/- ===== internal/config/config.go ===== -/

/-- Go struct `Config` (config.go).  The two `time.Duration` fields are
integers (nanoseconds, as in Go); `CPUThreshold` is the `float64` loaded
from `CPU_THRESHOLD` (default 50.0). -/
structure Config where
  ServiceName : String
  Environment : String
  ClusterName : String
  PollInterval : Int
  EventSinkURL : String
  EventTimeout : Int
  HTTPPort : String
  CPUThreshold : F64
deriving DecidableEq

/-- config.go `validate`: `false` means some `log.Fatal` fired (the
process stops before any scheduling), `true` means all checks passed.
The five checks, in source order: `EventSinkURL` non-empty,
`PollInterval > 0`, `EventTimeout > 0`, `HTTPPort` non-empty,
`CPUThreshold > 0`. -/
def validate (cfg : Config) : Bool :=
  if cfg.EventSinkURL = "" then false
  else if cfg.PollInterval ≤ 0 then false
  else if cfg.EventTimeout ≤ 0 then false
  else if cfg.HTTPPort = "" then false
  else if qle cfg.CPUThreshold ⟨0, 1⟩ then false
  else true

/- ===== internal/metrics (Metric struct and aggregator.go) ===== -/

/-- Go struct `metrics.Metric`, with the fields exactly as consumed by
aggregator.go (`m.Type`, `m.Namespace`, `m.Resource`, `m.Value`,
`m.Labels`).  The Go field `Type` is rendered `Typ` (Lean keyword). -/
structure Metric where
  Typ : String
  Namespace : String
  Resource : String
  Value : F64
  Labels : List (String × String)
deriving DecidableEq

/-- aggregator.go `buildMetricKey`: `"{kind}:{namespace}:{resource}"` when
the namespace is non-empty, else `"{kind}:{resource}"`. -/
def buildMetricKey (m : Metric) : String :=
  if m.Namespace ≠ "" then m.Typ ++ ":" ++ m.Namespace ++ ":" ++ m.Resource
  else m.Typ ++ ":" ++ m.Resource

/-- Go `aggregated[key] = append(aggregated[key], value)` on the
association-list model of the map: append to the entry of `key`, or create
the entry (with the nil slice as the starting point) if absent. -/
def mapAppendVal : List (String × List F64) → String → F64 → List (String × List F64)
  | [], k, v => [(k, [v])]
  | (k2, vs) :: rest, k, v =>
    if k2 = k then (k2, vs ++ [v]) :: rest else (k2, vs) :: mapAppendVal rest k v

/-- Go `labels[k] = v` on the association-list model of the map:
overwrite in place or insert at the end. -/
def mapSetLabel : List (String × String) → String → String → List (String × String)
  | [], k, v => [(k, v)]
  | (k2, v2) :: rest, k, v =>
    if k2 = k then (k2, v) :: rest else (k2, v2) :: mapSetLabel rest k v

/-- One iteration of the loop body of `AggregateMetrics`: append the
metric's value under its composite key and merge its label map
(last write wins). -/
def aggStep (st : List (String × List F64) × List (String × String)) (m : Metric) :
    List (String × List F64) × List (String × String) :=
  (mapAppendVal st.1 (buildMetricKey m) m.Value,
   m.Labels.foldl (fun ls kv => mapSetLabel ls kv.1 kv.2) st.2)

/-- aggregator.go `AggregateMetrics`: fold the metrics in slice order into
the two freshly-made maps and wrap them in a `SignalInput`. -/
def AggregateMetrics (metrics : List Metric) : SignalInput :=
  { Metrics := (metrics.foldl aggStep ([], [])).1
    Labels := (metrics.foldl aggStep ([], [])).2 }

/-- Reading a key of the metrics map: the Go expression
`aggregated[key]`, whose value is the nil (empty) slice when the key is
absent. -/
def lookupVals : List (String × List F64) → String → List F64
  | [], _ => []
  | (k2, vs) :: rest, k => if k2 = k then vs else lookupVals rest k

/- ===== internal/events/publisher.go ===== -/

/-- Outcome of the single HTTP POST performed by `Publish`: either
`p.client.Do` returned an error (transport failure: DNS, connect,
timeout), or a response arrived with some status code and a body that
either decodes as the JSON decision shape or does not. -/
inductive ExchangeResult where
  | transportFailure : ExchangeResult
  | response (status : Int) (bodyParses : Bool) : ExchangeResult
deriving DecidableEq

/-- Which fallible step of `Publish` fails, if any, in source order:
`json.Marshal` of the event can return an error (its only failure mode
for this payload shape is a timestamp outside Go's marshallable year
range), `http.NewRequestWithContext` can return an error (for instance
when the configured `EVENT_SINK_URL` is not a valid URL — the config only
checks non-emptiness), and otherwise the POST is attempted and yields an
`ExchangeResult`. -/
inductive PublishAttempt where
  | marshalFailure : PublishAttempt
  | requestBuildFailure : PublishAttempt
  | exchange (r : ExchangeResult) : PublishAttempt
deriving DecidableEq

/-- The error cases `Publish` can return, one per `return fmt.Errorf`
site of publisher.go. -/
inductive PublishError where
  | marshal : PublishError
  | requestBuild : PublishError
  | transport : PublishError
  | badStatus (code : Int) : PublishError
deriving DecidableEq

/-- publisher.go `Publish` as a function of which fallible step fails:
each of the three `if err != nil` returns (marshal, request construction,
`p.client.Do`) wraps and surfaces the error; a response status outside
`[200, 300)` is an error carrying the code; on a 2xx response the body is
decoded only for logging — the `else` branch prints a fallback line — and
`nil` is returned either way. -/
def Publish (a : PublishAttempt) : Except PublishError Unit :=
  match a with
  | .marshalFailure => .error .marshal
  | .requestBuildFailure => .error .requestBuild
  | .exchange .transportFailure => .error .transport
  | .exchange (.response code _) =>
    if code < 200 ∨ 300 ≤ code then .error (.badStatus code) else .ok ()

/-- Discriminator: did the publish attempt reach the HTTP exchange at
all? -/
def reachedExchange : PublishAttempt → Bool
  | .exchange _ => true
  | _ => false

/- ===== definitions taken from the spec's wording, for comparison ===== -/

/-- Modelled from the spec: "First key whose mean strictly exceeds a
configured threshold triggers the signal; scanning stops at the first
match", restricted to keys with the `"cpu:"` marker — expressed directly
with `List.find?` over the scan order. -/
def detectFirstMatchSpec (threshold : F64) (now : Int) (l : List (String × List F64)) :
    Option IncidentSignal × Bool :=
  match l.find? (fun p => goHasPfx p.1 "cpu:" && qlt threshold (average p.2)) with
  | some p => (some (cpuSpikeSignal threshold now p.1 p.2), true)
  | none => (none, false)

/-- The (kind, namespace, resource) triple of a metric, the identity that
the composite key is claimed to determine. -/
def metricTriple (m : Metric) : String × String × String :=
  (m.Typ, m.Namespace, m.Resource)

/-- The composite key as a function of the triple alone;
`buildMetricKey m = keyOfTriple (metricTriple m)` definitionally. -/
def keyOfTriple (t : String × String × String) : String :=
  if t.2.1 ≠ "" then t.1 ++ ":" ++ t.2.1 ++ ":" ++ t.2.2 else t.1 ++ ":" ++ t.2.2

/-- A string with no `':'` character — the side condition under which the
composite key is injective. -/
def noColon (s : String) : Prop := (':' : Char) ∉ s.data

instance (s : String) : Decidable (noColon s) :=
  inferInstanceAs (Decidable (¬(':' : Char) ∈ s.data))

/-- All three key-relevant fields of a metric are colon-free. -/
def noColonM (m : Metric) : Prop :=
  noColon m.Typ ∧ noColon m.Namespace ∧ noColon m.Resource

instance (m : Metric) : Decidable (noColonM m) :=
  inferInstanceAs (Decidable (noColon m.Typ ∧ noColon m.Namespace ∧ noColon m.Resource))

/- ===== helper lemmas ===== -/

/-- The detector loop returns exactly the first-match result described by
`List.find?` over the scan order. -/
theorem detectGo_eq_first_match (t : F64) (now : Int) (l : List (String × List F64)) :
    detectGo t now l = detectFirstMatchSpec t now l := by
  induction l with
  | nil => rfl
  | cons p rest ih =>
    obtain ⟨key, values⟩ := p
    by_cases h1 : goHasPfx key "cpu:" = true
    · by_cases h2 : qlt t (average values) = true
      · simp [detectGo, detectFirstMatchSpec, List.find?_cons, h1, h2]
      · simp only [Bool.not_eq_true] at h2
        simp only [detectGo, detectFirstMatchSpec, List.find?_cons, h1, h2] at ih ⊢
        simpa [h2] using ih
    · simp only [Bool.not_eq_true] at h1
      simp only [detectGo, detectFirstMatchSpec, List.find?_cons, h1] at ih ⊢
      simpa [h1] using ih

/-- The boolean component of the detector loop is `List.any` of the
trigger test. -/
theorem detectGo_snd_eq_any (t : F64) (now : Int) (l : List (String × List F64)) :
    (detectGo t now l).2 = l.any (fun p => goHasPfx p.1 "cpu:" && qlt t (average p.2)) := by
  induction l with
  | nil => rfl
  | cons p rest ih =>
    obtain ⟨key, values⟩ := p
    by_cases h1 : goHasPfx key "cpu:" = true <;> by_cases h2 : qlt t (average values) = true <;>
      simp [detectGo, h1, h2, ih]

/-- Invariance of `List.any` under permutation of the list. -/
theorem perm_any {α : Type} (f : α → Bool) {l1 l2 : List α} (h : l1.Perm l2) :
    l1.any f = l2.any f := by
  cases h1 : l1.any f <;> cases h2 : l2.any f
  · rfl
  · rw [List.any_eq_true] at h2
    obtain ⟨x, hx, hfx⟩ := h2
    rw [List.any_eq_false] at h1
    exact absurd hfx (h1 x (h.mem_iff.mpr hx))
  · rw [List.any_eq_true] at h1
    obtain ⟨x, hx, hfx⟩ := h1
    rw [List.any_eq_false] at h2
    exact absurd hfx (h2 x (h.mem_iff.mp hx))
  · rfl

/- ===== C1 ===== -/

/-- C1: for every `SignalInput` and threshold, `Detect` scans the metrics
map in iteration order, considers only keys carrying the `"cpu:"` marker,
triggers on the first such key whose (float64) mean strictly exceeds the
threshold and stops there — so at most one signal per call — and yields
`(none, false)` exactly when `List.find?` finds no triggering key; the
mean of an empty value slice is `0`. -/
theorem detect_scans_first_cpu_match :
    (∀ (threshold : F64) (now : Int) (input : SignalInput),
      Detect threshold now input = detectFirstMatchSpec threshold now input.Metrics) ∧
    average [] = (⟨0, 1⟩ : F64) :=
  ⟨fun t now input => detectGo_eq_first_match t now input.Metrics, rfl⟩

/- ===== C10 ===== -/

/-- C10: `Detect` always returns a well-formed pair — either
`(none, false)`, or `(some signal, true)` where the signal's type is the
`cpu_spike` variant and its metadata map has entries for both
`"average_cpu_millicores"` and `"threshold_millicores"`. -/
theorem detect_wellformed_result :
    ∀ (threshold : F64) (now : Int) (input : SignalInput),
      Detect threshold now input = (none, false) ∨
      ∃ s : IncidentSignal, Detect threshold now input = (some s, true) ∧
        s.Typ = SignalCPUSpike ∧
        (∃ v, ("average_cpu_millicores", v) ∈ s.Metadata) ∧
        (∃ v, ("threshold_millicores", v) ∈ s.Metadata) := by
  intro t now input
  rw [show Detect t now input = detectFirstMatchSpec t now input.Metrics from
    detectGo_eq_first_match t now input.Metrics]
  cases h : input.Metrics.find? (fun p => goHasPfx p.1 "cpu:" && qlt t (average p.2)) with
  | none => left; simp [detectFirstMatchSpec, h]
  | some p =>
    right
    refine ⟨cpuSpikeSignal t now p.1 p.2, by simp [detectFirstMatchSpec, h], rfl, ?_, ?_⟩
    · exact ⟨fmtDot2 (average p.2), by simp [cpuSpikeSignal]⟩
    · exact ⟨fmtDot2 t, by simp [cpuSpikeSignal]⟩

/- ===== C4 ===== -/

/-- C4 (amended): `Publish` succeeds exactly when the HTTP exchange
completes with a 2xx status — equivalently, it errors iff serialising the
event fails, building the HTTP request fails (possible when the
configured sink address is not a valid URL), the exchange fails in
transport, or the response status is outside `[200, 300)`; whether a 2xx
response body parses as the decision shape never affects the result. -/
theorem publish_ok_iff_2xx :
    (∀ a : PublishAttempt, Publish a = Except.ok () ↔
      ∃ code parses, a = PublishAttempt.exchange (ExchangeResult.response code parses) ∧
        200 ≤ code ∧ code < 300) ∧
    (∀ (code : Int) (b1 b2 : Bool),
      Publish (PublishAttempt.exchange (ExchangeResult.response code b1)) =
        Publish (PublishAttempt.exchange (ExchangeResult.response code b2))) := by
  constructor
  · intro a
    cases a with
    | marshalFailure =>
      constructor
      · intro heq; exact absurd heq (by simp [Publish])
      · rintro ⟨c, p, heq, -, -⟩; exact PublishAttempt.noConfusion heq
    | requestBuildFailure =>
      constructor
      · intro heq; exact absurd heq (by simp [Publish])
      · rintro ⟨c, p, heq, -, -⟩; exact PublishAttempt.noConfusion heq
    | exchange r =>
      cases r with
      | transportFailure =>
        constructor
        · intro heq; exact absurd heq (by simp [Publish])
        · rintro ⟨c, p, heq, -, -⟩
          injection heq with h2
          exact ExchangeResult.noConfusion h2
      | response code parses =>
        by_cases h : code < 200 ∨ 300 ≤ code
        · simp only [Publish, if_pos h]
          constructor
          · intro heq; exact absurd heq (by simp)
          · rintro ⟨c, p, heq, h1, h2⟩
            injection heq with h3
            injection h3 with h4 h5
            subst h4
            omega
        · simp only [Publish, if_neg h]
          constructor
          · intro _; exact ⟨code, parses, rfl, by omega, by omega⟩
          · intro _; trivial
  · intro c b1 b2; rfl

/-- C4 counterexample: when request construction fails (invalid sink
URL), `Publish` returns an error although no HTTP exchange took place —
there is neither a transport failure nor any response status — so
"error if and only if transport failure or non-2xx status" is false. -/
theorem publish_nonexchange_error_cex :
    Publish PublishAttempt.requestBuildFailure = Except.error PublishError.requestBuild ∧
    reachedExchange PublishAttempt.requestBuildFailure = false :=
  ⟨rfl, rfl⟩

/-- C4 witness: a 2xx response with an unparseable body still publishes
successfully. -/
theorem publish_ok_iff_2xx_witness :
    Publish (PublishAttempt.exchange (ExchangeResult.response 204 false)) = Except.ok () :=
  (publish_ok_iff_2xx.1 (PublishAttempt.exchange (ExchangeResult.response 204 false))).mpr
    ⟨204, false, rfl, by omega, by omega⟩

/- ===== C5 ===== -/

/-- C5 (amended): construction-time validation fatally enforces all four
constraints the claim names — sink address non-empty, poll interval > 0,
per-publish timeout > 0, detector threshold > 0 — but it additionally
requires a non-empty HTTP port, so validation passes exactly when all
five constraints hold; a configuration meeting the claim's four
constraints alone can still fail fatally (empty HTTP port). -/
theorem validate_checks :
    ∀ cfg : Config, validate cfg = true ↔
      (cfg.EventSinkURL ≠ "" ∧ 0 < cfg.PollInterval ∧ 0 < cfg.EventTimeout ∧
        cfg.HTTPPort ≠ "" ∧ qlt ⟨0, 1⟩ cfg.CPUThreshold = true) := by
  intro cfg
  unfold validate
  by_cases h1 : cfg.EventSinkURL = "" <;> by_cases h2 : cfg.PollInterval ≤ 0 <;>
    by_cases h3 : cfg.EventTimeout ≤ 0 <;> by_cases h4 : cfg.HTTPPort = "" <;>
      by_cases h5 : qle cfg.CPUThreshold ⟨0, 1⟩ = true <;>
        simp [qle, qlt, h1, h2, h3, h4] at h5 ⊢ <;> omega

/-- The configuration used in the C5 counterexample: every constraint the
claim lists holds (positive interval and timeout, non-empty sink,
threshold 50.0 > 0), but the HTTP port is empty. -/
def portlessConfig : Config :=
  { ServiceName := "telemetry-service", Environment := "development", ClusterName := ""
    PollInterval := 30000000000, EventSinkURL := "http://localhost:8080/events"
    EventTimeout := 180000000000, HTTPPort := "", CPUThreshold := ⟨50, 1⟩ }

/-- C5 counterexample: all four constraints named by the claim hold, yet
validation fails fatally — the code also requires a non-empty
`HTTP_PORT`, which the claim's "when all four constraints hold,
validation passes" omits. -/
theorem validate_four_not_sufficient_cex :
    0 < portlessConfig.PollInterval ∧ 0 < portlessConfig.EventTimeout ∧
    portlessConfig.EventSinkURL ≠ "" ∧ qlt ⟨0, 1⟩ portlessConfig.CPUThreshold = true ∧
    validate portlessConfig = false := by decide

/-- A fully valid configuration (the defaults of config.go `Load`). -/
def goodConfig : Config :=
  { ServiceName := "telemetry-service", Environment := "development", ClusterName := ""
    PollInterval := 30000000000, EventSinkURL := "http://localhost:8080/events"
    EventTimeout := 180000000000, HTTPPort := "8080", CPUThreshold := ⟨50, 1⟩ }

/-- C5 witness: the amended validation criterion accepts the default
configuration. -/
theorem validate_checks_witness : validate goodConfig = true :=
  (validate_checks goodConfig).mpr
    ⟨by decide, by decide, by decide, by decide, by decide⟩

/- ===== C8 ===== -/

/-- C8: `parseKey` splits the composite key on `":"` and yields
(second, third) for exactly 3 parts, ("", second) for exactly 2 parts,
and ("", "unknown") otherwise; in particular on the three example keys. -/
theorem parse_key_split_cases :
    (∀ key : String,
      ((goSplitColon key).length = 3 →
        parseKey key = ((goSplitColon key)[1]!, (goSplitColon key)[2]!)) ∧
      ((goSplitColon key).length = 2 →
        parseKey key = ("", (goSplitColon key)[1]!)) ∧
      ((goSplitColon key).length ≠ 3 → (goSplitColon key).length ≠ 2 →
        parseKey key = ("", "unknown"))) ∧
    goSplitColon "cpu:default:nginx" = ["cpu", "default", "nginx"] ∧
    parseKey "cpu:default:nginx" = ("default", "nginx") ∧
    parseKey "cpu:nginx" = ("", "nginx") ∧
    parseKey "bad" = ("", "unknown") := by
  refine ⟨fun key => ?_, by decide, by decide, by decide, by decide⟩
  rcases hl : goSplitColon key with - | ⟨a, - | ⟨b, - | ⟨c, - | ⟨d, rest⟩⟩⟩⟩ <;>
    exact ⟨fun h3 => by simp_all [parseKey], fun h2 => by simp_all [parseKey],
      fun h3 h2 => by simp_all [parseKey]⟩

/-- C8 witness: the 3-part case applied to the first example key. -/
theorem parse_key_split_cases_witness :
    parseKey "cpu:default:nginx" =
      ((goSplitColon "cpu:default:nginx")[1]!, (goSplitColon "cpu:default:nginx")[2]!) :=
  (parse_key_split_cases.1 "cpu:default:nginx").1 (by decide)

/- ===== C3 ===== -/

/-- C3 (amended): the boolean `found` component of `Detect` is a function
of the map contents alone — invariant under the randomised map iteration
order and under the `time.Now()` reading; the full (signal, found) pair is
reproducible only for a fixed iteration order and clock reading, because
the emitted signal names whichever triggering key is scanned first and
carries the clock reading as its timestamp. -/
theorem detect_found_deterministic :
    ∀ (threshold : F64) (now1 now2 : Int) (i1 i2 : SignalInput),
      i1.Metrics.Perm i2.Metrics →
      (Detect threshold now1 i1).2 = (Detect threshold now2 i2).2 := by
  intro t n1 n2 i1 i2 h
  unfold Detect
  rw [detectGo_snd_eq_any, detectGo_snd_eq_any]
  exact perm_any _ h

/-- Two-key input with both cpu keys above threshold, in one iteration
order. -/
def permInput1 : SignalInput :=
  { Metrics := [("cpu:a:x", [⟨100, 1⟩]), ("cpu:b:y", [⟨100, 1⟩])], Labels := [] }

/-- The same Go map contents in the other iteration order. -/
def permInput2 : SignalInput :=
  { Metrics := [("cpu:b:y", [⟨100, 1⟩]), ("cpu:a:x", [⟨100, 1⟩])], Labels := [] }

/-- C3 counterexample: the two inputs are the same finite map (a
permutation with no duplicate keys), yet `Detect` returns different
(signal, found) pairs — the returned pair is not a function of the
`SignalInput` value alone. -/
theorem detect_order_dependent_cex :
    permInput1.Metrics.Perm permInput2.Metrics ∧
    (permInput1.Metrics.map Prod.fst).Nodup ∧
    Detect ⟨50, 1⟩ 0 permInput1 ≠ Detect ⟨50, 1⟩ 0 permInput2 := by
  exact ⟨by decide, by decide, by decide⟩

/-- C3 witness: the found flag agrees across the two iteration orders and
two different clock readings. -/
theorem detect_found_deterministic_witness :
    (Detect ⟨50, 1⟩ 0 permInput1).2 = (Detect ⟨50, 1⟩ 7 permInput2).2 :=
  detect_found_deterministic ⟨50, 1⟩ 0 7 permInput1 permInput2 (by decide)

/- ===== C2 ===== -/

/-- C2 (amended): severity is banded by the float64 products
`threshold*1.5`, `threshold*1.2`, `threshold*1.1`, each cutoff inclusive;
but the products are computed in binary64, so for threshold 50.0 the
medium cutoff `50.0*1.1` is `55 + 2^(-47)` (slightly above 55), and a mean
of exactly 55.0 classifies as low; the smallest float64 at or above that
cutoff gives medium, while 50.01 gives low, 60.0 gives high and 75.0 gives
critical as the claim states. -/
theorem classify_severity_bands :
    (∀ avg threshold : F64, qle (mulF threshold (litF 3 2)) avg = true →
      ClassifySeverity avg threshold = SeverityCritical) ∧
    (∀ avg threshold : F64, qle (mulF threshold (litF 3 2)) avg = false →
      qle (mulF threshold (litF 6 5)) avg = true →
      ClassifySeverity avg threshold = SeverityHigh) ∧
    (∀ avg threshold : F64, qle (mulF threshold (litF 3 2)) avg = false →
      qle (mulF threshold (litF 6 5)) avg = false →
      qle (mulF threshold (litF 11 10)) avg = true →
      ClassifySeverity avg threshold = SeverityMedium) ∧
    (∀ avg threshold : F64, qle (mulF threshold (litF 3 2)) avg = false →
      qle (mulF threshold (litF 6 5)) avg = false →
      qle (mulF threshold (litF 11 10)) avg = false →
      ClassifySeverity avg threshold = SeverityLow) ∧
    (mulF ⟨50, 1⟩ (litF 11 10)).val = 55 + 1 / 140737488355328 ∧
    (mulF ⟨50, 1⟩ (litF 6 5)).val = 60 ∧
    (mulF ⟨50, 1⟩ (litF 3 2)).val = 75 ∧
    ClassifySeverity (litF 5001 100) ⟨50, 1⟩ = SeverityLow ∧
    ClassifySeverity ⟨55, 1⟩ ⟨50, 1⟩ = SeverityLow ∧
    ClassifySeverity ⟨7740561859543041, 140737488355328⟩ ⟨50, 1⟩ = SeverityMedium ∧
    ClassifySeverity ⟨60, 1⟩ ⟨50, 1⟩ = SeverityHigh ∧
    ClassifySeverity ⟨75, 1⟩ ⟨50, 1⟩ = SeverityCritical := by
  refine ⟨fun avg th h1 => by simp [ClassifySeverity, h1],
    fun avg th h1 h2 => by simp [ClassifySeverity, h1, h2],
    fun avg th h1 h2 h3 => by simp [ClassifySeverity, h1, h2, h3],
    fun avg th h1 h2 h3 => by simp [ClassifySeverity, h1, h2, h3],
    ?_, ?_, ?_, by decide, by decide, by decide, by decide, by decide⟩
  · rw [show mulF ⟨50, 1⟩ (litF 11 10) = ⟨7740561859543041, 140737488355328⟩ from by decide]
    unfold F64.val
    norm_num
  · rw [show mulF ⟨50, 1⟩ (litF 6 5) = ⟨8444249301319680, 140737488355328⟩ from by decide]
    unfold F64.val
    norm_num
  · rw [show mulF ⟨50, 1⟩ (litF 3 2) = ⟨5277655813324800, 70368744177664⟩ from by decide]
    unfold F64.val
    norm_num

/-- C2 counterexample: with threshold 50.0 a mean of exactly 55.0 is
classified low, not medium as the claim's boundary table asserts, because
the Go expression `threshold*1.1` rounds to `55 + 2^(-47) > 55` in
binary64. -/
theorem classify_severity_55_cex :
    ClassifySeverity ⟨55, 1⟩ ⟨50, 1⟩ = SeverityLow ∧ SeverityLow ≠ SeverityMedium := by
  exact ⟨by decide, by decide⟩

/-- C2 witness: the critical band applied at mean 75.0, threshold 50.0. -/
theorem classify_severity_bands_witness :
    ClassifySeverity ⟨75, 1⟩ ⟨50, 1⟩ = SeverityCritical :=
  classify_severity_bands.1 ⟨75, 1⟩ ⟨50, 1⟩ (by decide)

/- ===== C7 ===== -/

/-- Reading key `k2` after a map-append under key `k` sees the old value
sequence, extended by the new value exactly when `k = k2`. -/
theorem lookupVals_mapAppendVal (m : List (String × List F64)) (k k2 : String) (v : F64) :
    lookupVals (mapAppendVal m k v) k2 = lookupVals m k2 ++ (if k = k2 then [v] else []) := by
  induction m with
  | nil => by_cases h : k = k2 <;> simp [mapAppendVal, lookupVals, h]
  | cons p rest ih =>
    obtain ⟨pk, pvs⟩ := p
    by_cases h1 : pk = k
    · subst h1
      by_cases h2 : pk = k2
      · subst h2; simp [mapAppendVal, lookupVals]
      · simp [mapAppendVal, lookupVals, h2]
    · by_cases h2 : pk = k2
      · have h3 : ¬k = k2 := fun he => h1 (h2.trans he.symm)
        have h4 : ¬k2 = k := fun he => h3 he.symm
        simp [mapAppendVal, lookupVals, h1, h2, h3, h4]
      · simp [mapAppendVal, lookupVals, h1, h2, ih]

/-- Folding the aggregation step over a metric list extends each key's
value sequence by the values of the metrics mapping to that key, in
arrival order. -/
theorem aggFold_lookup (ms : List Metric)
    (acc : List (String × List F64) × List (String × String)) (k : String) :
    lookupVals (ms.foldl aggStep acc).1 k =
      lookupVals acc.1 k ++ (ms.filter (fun m => buildMetricKey m == k)).map Metric.Value := by
  induction ms generalizing acc with
  | nil => simp
  | cons m rest ih =>
    rw [List.foldl_cons, ih]
    rw [show (aggStep acc m).1 = mapAppendVal acc.1 (buildMetricKey m) m.Value from rfl]
    rw [lookupVals_mapAppendVal]
    by_cases h : buildMetricKey m = k
    · simp [List.filter_cons, h, List.append_assoc]
    · simp [List.filter_cons, h, List.append_assoc]

/-- C7: for every metric sequence, each key of the aggregation holds
exactly the values of the metrics with that composite key, in arrival
order, and the empty input aggregates to the `SignalInput` with (made,
empty) metrics and labels maps — a total function, no error case. -/
theorem aggregate_preserves_order :
    (∀ (ms : List Metric) (k : String),
      lookupVals (AggregateMetrics ms).Metrics k =
        (ms.filter (fun m => buildMetricKey m == k)).map Metric.Value) ∧
    AggregateMetrics [] = { Metrics := [], Labels := [] } := by
  constructor
  · intro ms k
    show lookupVals (ms.foldl aggStep ([], [])).1 k = _
    rw [aggFold_lookup]
    simp [lookupVals]
  · rfl

/- ===== C6 ===== -/

/-- Strings with equal character data are equal. -/
theorem str_data_inj {s t : String} (h : s.data = t.data) : s = t := by
  cases s; cases t; exact congrArg String.mk h

/-- Splitting at the first colon is unambiguous when the part before it is
colon-free. -/
theorem colon_append_inj : ∀ {a c b d : List Char},
    (':' : Char) ∉ a → (':' : Char) ∉ c → a ++ ':' :: b = c ++ ':' :: d →
    a = c ∧ b = d := by
  intro a
  induction a with
  | nil =>
    intro c b d ha hc h
    cases c with
    | nil => simpa using h
    | cons y ys =>
      rw [List.nil_append, List.cons_append] at h
      injection h with h1 h2
      exact absurd (by rw [h1]; exact List.mem_cons_self y ys) hc
  | cons x xs ih =>
    intro c b d ha hc h
    cases c with
    | nil =>
      rw [List.cons_append, List.nil_append] at h
      injection h with h1 h2
      exact absurd (by rw [← h1]; exact List.mem_cons_self x xs) ha
    | cons y ys =>
      rw [List.cons_append, List.cons_append] at h
      injection h with h1 h2
      have ha2 : (':' : Char) ∉ xs := fun hm => ha (List.mem_cons_of_mem x hm)
      have hc2 : (':' : Char) ∉ ys := fun hm => hc (List.mem_cons_of_mem y hm)
      obtain ⟨hac, hbd⟩ := ih ha2 hc2 h2
      exact ⟨by rw [h1, hac], hbd⟩

/-- Character data of a two-part composite key. -/
theorem key2_data (k r : String) : (k ++ ":" ++ r).data = k.data ++ ':' :: r.data := by
  simp [String.data_append, show (":" : String).data = [':'] from rfl]

/-- Character data of a three-part composite key. -/
theorem key3_data (k n r : String) :
    (k ++ ":" ++ n ++ ":" ++ r).data = k.data ++ ':' :: (n.data ++ ':' :: r.data) := by
  simp [String.data_append, show (":" : String).data = [':'] from rfl]

/-- On colon-free triples, the composite key determines the triple. -/
theorem keyOfTriple_inj : ∀ {t1 t2 : String × String × String},
    noColon t1.1 → noColon t1.2.1 → noColon t1.2.2 →
    noColon t2.1 → noColon t2.2.1 → noColon t2.2.2 →
    keyOfTriple t1 = keyOfTriple t2 → t1 = t2 := by
  rintro ⟨k1, n1, r1⟩ ⟨k2, n2, r2⟩ hk1 hn1 hr1 hk2 hn2 hr2 heq
  unfold keyOfTriple at heq
  simp only [Prod.mk.injEq]
  by_cases e1 : n1 = ""
  · rw [if_neg (not_not_intro e1)] at heq
    by_cases e2 : n2 = ""
    · -- both namespaces empty: two-part keys
      rw [if_neg (not_not_intro e2)] at heq
      have hd := congrArg String.data heq
      rw [key2_data, key2_data] at hd
      obtain ⟨hk, hr⟩ := colon_append_inj hk1 hk2 hd
      exact ⟨str_data_inj hk, e1.trans e2.symm, str_data_inj hr⟩
    · -- n1 empty, n2 not: a two-part key cannot equal a three-part key
      rw [if_pos e2] at heq
      have hd := congrArg String.data heq
      rw [key2_data, key3_data] at hd
      obtain ⟨-, habs⟩ := colon_append_inj hk1 hk2 hd
      have hmem : (':' : Char) ∈ r1.data := by
        rw [habs]; exact List.mem_append_right _ (List.mem_cons_self _ _)
      exact absurd hmem hr1
  · rw [if_pos e1] at heq
    by_cases e2 : n2 = ""
    · -- n1 not empty, n2 empty: symmetric collision of part counts
      rw [if_neg (not_not_intro e2)] at heq
      have hd := congrArg String.data heq
      rw [key3_data, key2_data] at hd
      obtain ⟨-, habs⟩ := colon_append_inj hk1 hk2 hd
      have hmem : (':' : Char) ∈ r2.data := by
        rw [← habs]; exact List.mem_append_right _ (List.mem_cons_self _ _)
      exact absurd hmem hr2
    · -- both namespaces non-empty: three-part keys
      rw [if_pos e2] at heq
      have hd := congrArg String.data heq
      rw [key3_data, key3_data] at hd
      obtain ⟨hk, hrest⟩ := colon_append_inj hk1 hk2 hd
      obtain ⟨hn, hr⟩ := colon_append_inj hn1 hn2 hrest
      exact ⟨str_data_inj hk, str_data_inj hn, str_data_inj hr⟩

/-- Conversion of a mapped list to a finite set is the image of the original conversion. -/
theorem list_toFinset_map {α β : Type} [DecidableEq α] [DecidableEq β]
    (l : List α) (f : α → β) : (l.map f).toFinset = l.toFinset.image f := by
  ext x
  constructor
  · intro h
    rw [List.mem_toFinset, List.mem_map] at h
    obtain ⟨a, ha, rfl⟩ := h
    exact Finset.mem_image.mpr ⟨a, List.mem_toFinset.mpr ha, rfl⟩
  · intro h
    obtain ⟨a, ha, rfl⟩ := Finset.mem_image.mp h
    exact List.mem_toFinset.mpr (List.mem_map.mpr ⟨a, List.mem_toFinset.mp ha, rfl⟩)

/-- C6 (amended): when the kind, namespace and resource fields contain no
`":"`, two metrics share a composite key exactly when their
(kind, namespace, resource) triples coincide, and the number of distinct
keys equals the number of distinct triples; without that restriction the
key is ambiguous (see the counterexample). -/
theorem metric_key_inj_noColon :
    (∀ m1 m2 : Metric, noColonM m1 → noColonM m2 →
      (buildMetricKey m1 = buildMetricKey m2 ↔ metricTriple m1 = metricTriple m2)) ∧
    (∀ ms : List Metric, (∀ m ∈ ms, noColonM m) →
      (ms.map buildMetricKey).toFinset.card = (ms.map metricTriple).toFinset.card) := by
  have hbuild : ∀ m : Metric, buildMetricKey m = keyOfTriple (metricTriple m) := fun m => rfl
  constructor
  · intro m1 m2 h1 h2
    constructor
    · intro heq
      exact keyOfTriple_inj h1.1 h1.2.1 h1.2.2 h2.1 h2.2.1 h2.2.2
        (by rw [← hbuild, ← hbuild]; exact heq)
    · intro heq
      rw [hbuild, hbuild, heq]
  · intro ms h
    have hcomp : ms.map buildMetricKey = (ms.map metricTriple).map keyOfTriple := by
      rw [List.map_map]; rfl
    rw [hcomp, list_toFinset_map, list_toFinset_map]
    apply Finset.card_image_of_injOn
    intro t1 ht1 t2 ht2 heq
    obtain ⟨m1, hm1, rfl⟩ := Finset.mem_image.mp ht1
    obtain ⟨m2, hm2, rfl⟩ := Finset.mem_image.mp ht2
    have h1 := h m1 (List.mem_toFinset.mp hm1)
    have h2 := h m2 (List.mem_toFinset.mp hm2)
    exact keyOfTriple_inj h1.1 h1.2.1 h1.2.2 h2.1 h2.2.1 h2.2.2 heq

/-- A metric whose resource name contains a colon. -/
def colonMetric1 : Metric :=
  { Typ := "cpu", Namespace := "", Resource := "a:b", Value := ⟨0, 1⟩, Labels := [] }

/-- A different metric that builds the same composite key. -/
def colonMetric2 : Metric :=
  { Typ := "cpu", Namespace := "a", Resource := "b", Value := ⟨0, 1⟩, Labels := [] }

/-- C6 counterexample: two metrics with different (kind, namespace,
resource) triples map to the same composite key `"cpu:a:b"`, so over all
field values the key does not uniquely identify the triple. -/
theorem metric_key_collision_cex :
    buildMetricKey colonMetric1 = buildMetricKey colonMetric2 ∧
    metricTriple colonMetric1 ≠ metricTriple colonMetric2 := by
  exact ⟨by decide, by decide⟩

/-- A colon-free metric used in the C6 witness. -/
def plainMetric : Metric :=
  { Typ := "cpu", Namespace := "default", Resource := "nginx", Value := ⟨0, 1⟩, Labels := [] }

/-- C6 witness: the key-equality criterion applied to a concrete
colon-free metric. -/
theorem metric_key_inj_noColon_witness :
    buildMetricKey plainMetric = buildMetricKey plainMetric ↔
      metricTriple plainMetric = metricTriple plainMetric :=
  metric_key_inj_noColon.1 plainMetric plainMetric
    ⟨by decide, by decide, by decide⟩ ⟨by decide, by decide, by decide⟩

end Telemetry
